import Mathlib

/-!
Shallow embedding of the GuiltyGuild trivia backend
(`src/backend/server.ts`, the Express variant, which the frozen claims
cite by line number).  JS numbers that hold integral values (timestamps,
indices, scores, time limits) are modelled as `Nat`/`Int`; JS records
(`Record<string, T>`) are modelled as association lists in insertion
order, which matches `Object.entries` iteration order; fallible handlers
return `Except`.  Time (`Date.now()`) is passed in explicitly as a `Nat`
parameter, and `crypto.randomUUID()` results are passed in as explicit
`String` parameters.
-/

namespace GuiltyGuild

/-- The `GamePhase` union type of `server.ts`. -/
inductive GamePhase where
  | LOBBY
  | STARTING
  | QUESTION_ACTIVE
  | QUESTION_READ
  | WAITING_FOR_HOST
  | REVEAL_ANSWER
  | LEADERBOARD
  | FINISHED
deriving DecidableEq, Repr

/-- The `Question` interface: text, answer options, correct-option index.
The index is an `Int` because it arrives as an unvalidated JS number. -/
structure Question where
  text : String
  answers : List String
  correctAnswer : Int
deriving DecidableEq, Repr

/-- One entry of `currentRoundAnswers`. `timeTakenMs` is
`Date.now() - phaseStartTime` at submission time, a non-negative number. -/
structure AnswerRecord where
  answerIndex : Int
  timeTakenMs : Nat
  scoreEarned : Nat
  timestamp : Nat
deriving DecidableEq, Repr

/-- The `GameState` interface.  `scores` and `currentRoundAnswers` are JS
records, embedded as association lists in insertion order. -/
structure GameState where
  id : String
  hostId : String
  phase : GamePhase
  questions : List Question
  currentQuestionIndex : Int
  phaseStartTime : Nat
  timeLimitSeconds : Nat
  players : List String
  scores : List (String × Nat)
  currentRoundAnswers : List (String × AnswerRecord)
  createdAt : Nat
deriving DecidableEq, Repr

/-- JS record assignment `m[k] = v`: overwrite the existing binding if the
key is present, otherwise append the new binding at the end (JS objects
keep string keys in insertion order). -/
def rset {β : Type} (m : List (String × β)) (k : String) (v : β) :
    List (String × β) :=
  if m.any (fun p => p.1 == k) then
    m.map (fun p => if p.1 = k then (k, v) else p)
  else m ++ [(k, v)]

/-- JS array indexing `qs[i]`: `undefined` (`none`) when `i` is negative or
past the end. -/
def questionAt (qs : List Question) (i : Int) : Option Question :=
  if i < 0 then none else qs[i.toNat]?

/-! ## Scoring (the reveal loop of the Express variant)

The reveal handler computes, for a correct answer,
`ratio = Math.min(1, timeTakenMs / (timeLimitSeconds * 1000))`,
`pts = Math.round(1000 * (1 - ratio / 2))`, and
`scoreEarned = Math.max(100, pts)`.
With `m = min timeTakenMs D` and `D = timeLimitSeconds * 1000` we have
`ratio = m / D` exactly, and since `Math.round x = ⌊x + 1/2⌋` for
non-negative `x`, `pts = ⌊1000 - 500·m/D + 1/2⌋ = (2001·D - 1000·m) / (2·D)`
in integer division.  `roundPoints_eq_round` below proves this equation
against Mathlib's rational `round`. -/

/-- `Math.round (1000 * (1 - (m / D) / 2))` computed in `Nat`
(valid for `m ≤ D`, `0 < D`). -/
def roundPoints (m D : Nat) : Nat := (2001 * D - 1000 * m) / (2 * D)

/-- The scoring function `score(isCorrect, elapsedMs, timeLimitSeconds)`
implemented by the reveal loop of `server.ts`. -/
def scoreFn (isCorrect : Bool) (elapsedMs timeLimitSeconds : Nat) : Nat :=
  if isCorrect then
    let D := timeLimitSeconds * 1000
    max 100 (roundPoints (min elapsedMs D) D)
  else 0

/-! ## Visibility filter (`sanitizeGameState`) -/

/-- The stripped question a non-host viewer receives: `correctAnswer` is
`none` exactly when the field is omitted from the JSON payload. -/
structure PlayerQuestion where
  text : String
  answers : List String
  correctAnswer : Option Int
deriving DecidableEq, Repr

/-- The `roundResult` object sent to a non-host viewer during
`REVEAL_ANSWER`. -/
structure RoundResult where
  answerIndex : Int
  scoreEarned : Nat
  isCorrect : Bool
deriving DecidableEq, Repr

/-- The non-host projection built by `sanitizeGameState`. Optional fields
model JSON fields that may be absent. -/
structure PlayerView where
  id : String
  phase : GamePhase
  hostId : String
  currentQuestionIndex : Int
  phaseStartTime : Nat
  timeLimitSeconds : Nat
  players : List String
  scores : List (String × Nat)
  userHasAnswered : Bool
  totalQuestions : Nat
  currentQuestion : Option PlayerQuestion
  roundResult : Option RoundResult
deriving DecidableEq, Repr

/-- What `sanitizeGameState` returns: the raw record for the host, the
restricted projection for anyone else. -/
inductive ViewerState where
  | host (game : GameState)
  | player (view : PlayerView)
deriving DecidableEq, Repr

/-- The `base` object of `sanitizeGameState` (fields always present for a
non-host viewer). -/
def playerBase (game : GameState) (userId : String) : PlayerView :=
  { id := game.id
    phase := game.phase
    hostId := game.hostId
    currentQuestionIndex := game.currentQuestionIndex
    phaseStartTime := game.phaseStartTime
    timeLimitSeconds := game.timeLimitSeconds
    players := game.players
    scores := game.scores
    userHasAnswered := (game.currentRoundAnswers.lookup userId).isSome
    totalQuestions := game.questions.length
    currentQuestion := none
    roundResult := none }

/-- `sanitizeGameState(game, userId)` from `server.ts` lines 131-176.
During the four pre-reveal phases the current question is sent without its
`correctAnswer`; during `REVEAL_ANSWER` the full question is sent plus, if
the viewer answered, a `roundResult` whose `isCorrect` compares the
viewer's index with `currentQuestion?.correctAnswer` (strict equality
against `undefined` is `false`). -/
def sanitizeGameState (game : GameState) (userId : String) : ViewerState :=
  if game.hostId == userId then .host game
  else
    let currentQuestion := questionAt game.questions game.currentQuestionIndex
    let myAnswer := game.currentRoundAnswers.lookup userId
    let base := playerBase game userId
    if game.phase == .QUESTION_ACTIVE || game.phase == .QUESTION_READ ||
        game.phase == .WAITING_FOR_HOST || game.phase == .STARTING then
      match currentQuestion with
      | some q =>
          .player { base with currentQuestion := some ⟨q.text, q.answers, none⟩ }
      | none => .player base
    else if game.phase == .REVEAL_ANSWER then
      let withQ :=
        match currentQuestion with
        | some q =>
            { base with
                currentQuestion := some ⟨q.text, q.answers, some q.correctAnswer⟩ }
        | none => base
      match myAnswer with
      | some r =>
          .player { withQ with
            roundResult := some
              ⟨r.answerIndex, r.scoreEarned,
                match currentQuestion with
                | some q => r.answerIndex == q.correctAnswer
                | none => false⟩ }
      | none => .player withQ
    else .player base

/-! ## Command layer

Each route handler, after its `kv.get` of the game record, is a pure
function of the loaded record (plus the caller identity, payload, and the
current clock).  Errors carry the handler's distinct rejection reasons;
an `Except.error` result means the handler returned without calling
`kv.set`, so the stored record is unchanged. -/

/-- The distinct rejection outcomes of the game route handlers.
`serverErr` models the uncaught `TypeError` thrown when the answer
bounds check dereferences an `undefined` current question. -/
inductive GameErr where
  | forbidden
  | questionsRequired
  | invalidQuestionFormat
  | notAcceptingAnswers
  | notInGame
  | alreadyAnswered
  | timeExpired
  | invalidAnswerIndex
  | noCurrentQuestion
  | gameInProgress
  | noActiveGame
  | serverErr
deriving DecidableEq, Repr

/-- The per-question validation of the `/start` handler: `!q.text` rejects
the empty string, at least two answer options, and a correct index within
bounds.  (`Array.isArray` and `typeof === "number"` always hold in this
typed embedding.) -/
def validQuestion (q : Question) : Bool :=
  q.text != "" && decide (2 ≤ q.answers.length) &&
    decide (0 ≤ q.correctAnswer) && decide (q.correctAnswer < (q.answers.length : Int))

/-- `POST /game/:gameId/start`.  Host-only; validates the question list;
clamps a supplied numeric time limit into `[5,120]` (`none` models an
absent or non-numeric `timeLimitSeconds` in the body); then transitions to
`STARTING` regardless of the current phase (the handler has no phase
precondition). -/
def StartGame (game : GameState) (callerId : String) (questions : List Question)
    (timeLimitSeconds : Option Int) (now : Nat) : Except GameErr GameState :=
  if game.hostId != callerId then .error .forbidden
  else if questions.isEmpty then .error .questionsRequired
  else if !questions.all validQuestion then .error .invalidQuestionFormat
  else
    let tl : Nat :=
      match timeLimitSeconds with
      | some t => (max 5 (min 120 t)).toNat
      | none => game.timeLimitSeconds
    .ok { game with
            questions := questions
            timeLimitSeconds := tl
            phase := .STARTING
            phaseStartTime := now
            currentQuestionIndex := 0
            currentRoundAnswers := [] }

/-- The record mutation of `POST /game/:gameId/next` (host check done by
the caller).  `STARTING → QUESTION_ACTIVE`; `REVEAL_ANSWER`/`LEADERBOARD`
advance the index or finish; any other phase falls through and the record
is persisted unchanged (the handler still reports success). -/
def nextStep (game : GameState) (now : Nat) : GameState :=
  if game.phase = .STARTING then
    { game with phase := .QUESTION_ACTIVE, phaseStartTime := now,
                currentRoundAnswers := [] }
  else if game.phase = .REVEAL_ANSWER ∨ game.phase = .LEADERBOARD then
    if (game.questions.length : Int) ≤ game.currentQuestionIndex + 1 then
      { game with phase := .FINISHED }
    else
      { game with currentQuestionIndex := game.currentQuestionIndex + 1,
                  phase := .QUESTION_ACTIVE, phaseStartTime := now,
                  currentRoundAnswers := [] }
  else game

/-- `POST /game/:gameId/next` at record level: `Forbidden` for a non-host,
otherwise the `nextStep` mutation is persisted and the handler reports
success. -/
def Advance (game : GameState) (callerId : String) (now : Nat) :
    Except GameErr GameState :=
  if game.hostId != callerId then .error .forbidden
  else .ok (nextStep game now)

/-- `POST /game/:gameId/answer`.  Checks in handler order: phase, roster
membership, duplicate, grace deadline, then the bounds check (whose
`answerIndex < 0` disjunct short-circuits before `currentQ.answers` is
dereferenced, so an `undefined` current question only throws for a
non-negative index). -/
def SubmitAnswer (game : GameState) (callerId : String) (answerIndex : Int)
    (now : Nat) : Except GameErr GameState :=
  if game.phase != .QUESTION_ACTIVE then .error .notAcceptingAnswers
  else if !game.players.contains callerId then .error .notInGame
  else if (game.currentRoundAnswers.lookup callerId).isSome then
    .error .alreadyAnswered
  else
    let elapsedMs := now - game.phaseStartTime
    if game.timeLimitSeconds * 1000 + 2000 < elapsedMs then .error .timeExpired
    else if answerIndex < 0 then .error .invalidAnswerIndex
    else
      match questionAt game.questions game.currentQuestionIndex with
      | none => .error .serverErr
      | some currentQ =>
          if (currentQ.answers.length : Int) ≤ answerIndex then
            .error .invalidAnswerIndex
          else
            .ok { game with
                    currentRoundAnswers :=
                      rset game.currentRoundAnswers callerId
                        ⟨answerIndex, elapsedMs, 0, now⟩ }

/-- One iteration of the reveal scoring loop: rescore the entry and, when
correct, accumulate the earned points into the viewer's cumulative score.
The accumulator carries the rebuilt `currentRoundAnswers` and the evolving
`scores` record. -/
def revealFold (currentQ : Question) (timeLimitSeconds : Nat)
    (acc : List (String × AnswerRecord) × List (String × Nat))
    (e : String × AnswerRecord) :
    List (String × AnswerRecord) × List (String × Nat) :=
  let userId := e.1
  let record := e.2
  if record.answerIndex == currentQ.correctAnswer then
    let earned := scoreFn true record.timeTakenMs timeLimitSeconds
    (acc.1 ++ [(userId, { record with scoreEarned := earned })],
     rset acc.2 userId ((acc.2.lookup userId).getD 0 + earned))
  else
    (acc.1 ++ [(userId, { record with scoreEarned := 0 })], acc.2)

/-- `POST /game/:gameId/reveal`.  Host-only; requires a current question;
scores every entry of `currentRoundAnswers` in insertion order; no phase
precondition; always ends in `REVEAL_ANSWER`. -/
def RevealAnswer (game : GameState) (callerId : String) :
    Except GameErr GameState :=
  if game.hostId != callerId then .error .forbidden
  else
    match questionAt game.questions game.currentQuestionIndex with
    | none => .error .noCurrentQuestion
    | some currentQ =>
        let res := game.currentRoundAnswers.foldl
          (revealFold currentQ game.timeLimitSeconds) ([], game.scores)
        .ok { game with
                currentRoundAnswers := res.1
                scores := res.2
                phase := .REVEAL_ANSWER }

/-- `POST /game/:gameId/leaderboard`.  Host-only; only flips the phase. -/
def ShowLeaderboard (game : GameState) (callerId : String) :
    Except GameErr GameState :=
  if game.hostId != callerId then .error .forbidden
  else .ok { game with phase := .LEADERBOARD }

/-- `POST /game/:gameId/reset`.  Host-only; back to `LOBBY` with cleared
questions/answers, the same players, and every current player's score
re-initialised to 0 (the `forEach` over `players` on a fresh `{}`). -/
def ResetGame (game : GameState) (callerId : String) (now : Nat) :
    Except GameErr GameState :=
  if game.hostId != callerId then .error .forbidden
  else .ok { game with
               phase := .LOBBY
               currentQuestionIndex := -1
               questions := []
               currentRoundAnswers := []
               phaseStartTime := now
               scores := game.players.foldl (fun m pid => rset m pid 0) [] }

/-- The lobby-join part of `POST /game/connect` at record level: a game in
progress only reconnects existing players; a `LOBBY` game adds the caller
to `players`/`scores` if absent. -/
def joinGame (game : GameState) (userId : String) : Except GameErr GameState :=
  if game.phase != .LOBBY then
    if game.players.contains userId then .ok game else .error .gameInProgress
  else if game.players.contains userId then .ok game
  else .ok { game with
               players := game.players ++ [userId]
               scores := rset game.scores userId 0 }

/-- The fresh `GameState` created by `POST /game/connect` for an allowed
host when no active game exists. -/
def newGame (hostId gameId : String) (now : Nat) : GameState :=
  { id := gameId
    hostId := hostId
    phase := .LOBBY
    questions := []
    currentQuestionIndex := -1
    phaseStartTime := now
    timeLimitSeconds := 30
    players := [hostId]
    scores := [(hostId, 0)]
    currentRoundAnswers := []
    createdAt := now }

/-- The `ALLOWED_HOSTS` allow-list of `server.ts`. -/
def ALLOWED_HOSTS : List String :=
  ["894118872712613898", "339513008835395587", "1125935493029310595",
   "525421911220682772", "1474209423378481194"]

/-! ## Store layer (`kv` keys `game:<id>` and the `activeGame` pointer) -/

/-- The slice of the key-value store the game endpoints touch: the game
records and the singleton `activeGame` pointer. -/
structure Store where
  games : List (String × GameState)
  activeGame : Option String
deriving DecidableEq, Repr

/-- `kv.set("game:" ++ gameId, game)`. -/
def Store.save (st : Store) (gameId : String) (game : GameState) : Store :=
  { st with games := rset st.games gameId game }

/-- The no-active-game tail of `POST /game/connect`: non-allow-listed
callers get the 404 "No active Trial found"; an allowed host creates a
fresh game and points `activeGame` at it. -/
def connectFresh (st : Store) (userId newGameId : String) (now : Nat) :
    Except GameErr (Store × String) :=
  if !ALLOWED_HOSTS.contains userId then .error .noActiveGame
  else
    .ok ({ games := rset st.games newGameId (newGame userId newGameId now),
           activeGame := some newGameId }, newGameId)

/-- `POST /game/connect` over the store.  When the pointer resolves to a
non-`FINISHED` game the lobby-join logic of `joinGame` applies; otherwise
the fresh-game tail runs. -/
def Connect (st : Store) (userId newGameId : String) (now : Nat) :
    Except GameErr (Store × String) :=
  match st.activeGame.bind
      (fun gid => (st.games.lookup gid).map (fun g => (gid, g))) with
  | some (activeGameId, game) =>
      if game.phase != .FINISHED then
        match joinGame game userId with
        | .error e => .error e
        | .ok game' => .ok (st.save activeGameId game', activeGameId)
      else connectFresh st userId newGameId now
  | none => connectFresh st userId newGameId now

/-- `POST /game/:gameId/next` over the store: on the finishing branch the
handler also runs `kv.del("activeGame")`. -/
def AdvanceStore (st : Store) (gameId callerId : String) (now : Nat) :
    Except GameErr Store :=
  match st.games.lookup gameId with
  | none => .error .forbidden
  | some game =>
      if game.hostId != callerId then .error .forbidden
      else if game.phase = .STARTING then
        .ok (st.save gameId
          { game with phase := .QUESTION_ACTIVE, phaseStartTime := now,
                      currentRoundAnswers := [] })
      else if game.phase = .REVEAL_ANSWER ∨ game.phase = .LEADERBOARD then
        if (game.questions.length : Int) ≤ game.currentQuestionIndex + 1 then
          .ok { games := rset st.games gameId { game with phase := .FINISHED },
                activeGame := none }
        else
          .ok (st.save gameId
            { game with currentQuestionIndex := game.currentQuestionIndex + 1,
                        phase := .QUESTION_ACTIVE, phaseStartTime := now,
                        currentRoundAnswers := [] })
      else .ok (st.save gameId game)

/-! ## Reachability (for the `timeLimitSeconds` invariant) -/

/-- One record-level command together with its payload, caller and clock. -/
inductive Cmd where
  | join (userId : String)
  | start (callerId : String) (questions : List Question)
      (timeLimitSeconds : Option Int) (now : Nat)
  | next (callerId : String) (now : Nat)
  | answer (callerId : String) (answerIndex : Int) (now : Nat)
  | reveal (callerId : String)
  | leaderboard (callerId : String)
  | reset (callerId : String) (now : Nat)

/-- Dispatch a command to its handler. -/
def applyCmd (c : Cmd) (g : GameState) : Except GameErr GameState :=
  match c with
  | .join u => joinGame g u
  | .start c qs tl now => StartGame g c qs tl now
  | .next c now => Advance g c now
  | .answer c i now => SubmitAnswer g c i now
  | .reveal c => RevealAnswer g c
  | .leaderboard c => ShowLeaderboard g c
  | .reset c now => ResetGame g c now

/-- A game record reachable from creation through any sequence of
successful commands. -/
inductive Reachable : GameState → Prop where
  | init (hostId gameId : String) (now : Nat) :
      Reachable (newGame hostId gameId now)
  | step {g g' : GameState} (c : Cmd) :
      Reachable g → applyCmd c g = .ok g' → Reachable g'

/-! ## Concurrency model for two simultaneous `next` commands

The handler's only interactions with the shared record are the
`await kv.get` (load) and `await kv.set` (persist); Node's event loop may
interleave the two handlers at those await points, and `server.ts` takes
no per-game lock.  A schedule is any ordering of the two load events and
two store events in which each command loads before it stores; each store
writes `nextStep` of the snapshot its command loaded. -/

/-- The four interleaving-relevant events of two concurrent `next`
commands `A` and `B`. -/
inductive NextEv where
  | loadA
  | storeA
  | loadB
  | storeB
deriving DecidableEq, Repr

/-- Shared record plus the two handlers' private snapshots. -/
structure ConcState where
  record : GameState
  snapA : Option GameState
  snapB : Option GameState
deriving DecidableEq, Repr

/-- Execute a schedule: loads copy the shared record into a snapshot,
stores persist `f` of the loading command's snapshot (`fA`/`fB` fix each
command's `Date.now()` readings). -/
def runSchedule (fA fB : GameState → GameState) :
    List NextEv → ConcState → ConcState
  | [], s => s
  | .loadA :: rest, s => runSchedule fA fB rest { s with snapA := some s.record }
  | .loadB :: rest, s => runSchedule fA fB rest { s with snapB := some s.record }
  | .storeA :: rest, s =>
      runSchedule fA fB rest
        { s with record := match s.snapA with | some g => fA g | none => s.record }
  | .storeB :: rest, s =>
      runSchedule fA fB rest
        { s with record := match s.snapB with | some g => fB g | none => s.record }

/-- The schedules the unlocked handlers admit: every interleaving of the
two load/store pairs. -/
def validSchedule (evs : List NextEv) : Prop :=
  evs = [.loadA, .storeA, .loadB, .storeB] ∨
  evs = [.loadB, .storeB, .loadA, .storeA] ∨
  evs = [.loadA, .loadB, .storeA, .storeB] ∨
  evs = [.loadA, .loadB, .storeB, .storeA] ∨
  evs = [.loadB, .loadA, .storeA, .storeB] ∨
  evs = [.loadB, .loadA, .storeB, .storeA]

instance : DecidablePred validSchedule := fun evs => by
  unfold validSchedule; infer_instance

/-- The serialized schedules (one command's critical section entirely
before the other's), as the spec's serialization discipline would
require. -/
def serialSchedule (evs : List NextEv) : Prop :=
  evs = [.loadA, .storeA, .loadB, .storeB] ∨
  evs = [.loadB, .storeB, .loadA, .storeA]

instance : DecidablePred serialSchedule := fun evs => by
  unfold serialSchedule; infer_instance

instance {ε α : Type} [DecidableEq ε] [DecidableEq α] :
    DecidableEq (Except ε α) := fun x y =>
  match x, y with
  | .error e, .error f =>
      if h : e = f then isTrue (by rw [h])
      else isFalse (fun hh => by injection hh; exact h ‹_›)
  | .error _, .ok _ => isFalse (fun h => Except.noConfusion h)
  | .ok _, .error _ => isFalse (fun h => Except.noConfusion h)
  | .ok a, .ok b =>
      if h : a = b then isTrue (by rw [h])
      else isFalse (fun hh => by injection hh; exact h ‹_›)

/-! ## Derived forms of the reveal scoring loop -/

/-- The rescoring the reveal loop applies to a single entry. -/
def scoredEntry (currentQ : Question) (timeLimitSeconds : Nat)
    (e : String × AnswerRecord) : String × AnswerRecord :=
  (e.1,
   { e.2 with
       scoreEarned := scoreFn (e.2.answerIndex == currentQ.correctAnswer)
                        e.2.timeTakenMs timeLimitSeconds })

/-- Rescore a bare answer record the way the reveal loop does. -/
def rescore (q : Question) (T : Nat) (r : AnswerRecord) : AnswerRecord :=
  { r with
      scoreEarned := scoreFn (r.answerIndex == q.correctAnswer) r.timeTakenMs T }

/-- The score-record side effect of one reveal-loop iteration. -/
def revealScoresStep (currentQ : Question) (timeLimitSeconds : Nat)
    (s : List (String × Nat)) (e : String × AnswerRecord) :
    List (String × Nat) :=
  if e.2.answerIndex == currentQ.correctAnswer then
    rset s e.1 ((s.lookup e.1).getD 0 +
      scoreFn true e.2.timeTakenMs timeLimitSeconds)
  else s

/-- The claim's scoring formula, stated in its own words:
`ratio = clamp(elapsedMs / (timeLimitSeconds*1000), 0, 1)`,
`score = max(100, round(1000 * (1 - ratio/2)))` for a correct answer and
`0` otherwise, in exact rational arithmetic. -/
def scoreSpec : Bool → Nat → Nat → ℤ
  | false, _, _ => 0
  | true, elapsedMs, timeLimitSeconds =>
    max 100 (round ((1000 : ℚ) *
      (1 - (max 0 (min 1 ((elapsedMs : ℚ) /
        ((timeLimitSeconds : ℚ) * 1000)))) / 2)))

/-! ## Concrete fixtures used by witnesses and counterexamples -/

/-- A two-option question whose correct option is index 1. -/
def qA : Question := { text := "Q", answers := ["A", "B"], correctAnswer := 1 }

/-- A mid-round game: host `"h"`, player `"p"` has already answered
option 1 instantly. -/
def gRound : GameState :=
  { id := "g1"
    hostId := "h"
    phase := .QUESTION_ACTIVE
    questions := [qA]
    currentQuestionIndex := 0
    phaseStartTime := 0
    timeLimitSeconds := 30
    players := ["h", "p"]
    scores := [("h", 0), ("p", 0)]
    currentRoundAnswers := [("p", ⟨1, 0, 0, 0⟩)]
    createdAt := 0 }

/-- `gRound` after the host's reveal: the entry is rescored to 1000 and
`"p"`'s cumulative score is 1000. -/
def gRevealed : GameState :=
  { gRound with
      phase := .REVEAL_ANSWER
      currentRoundAnswers := [("p", ⟨1, 0, 1000, 0⟩)]
      scores := [("h", 0), ("p", 1000)] }

/-- `gRevealed` after a second reveal: the same entry is rescored to the
same 1000 but the cumulative score doubles to 2000. -/
def gRevealedTwice : GameState :=
  { gRound with
      phase := .REVEAL_ANSWER
      currentRoundAnswers := [("p", ⟨1, 0, 1000, 0⟩)]
      scores := [("h", 0), ("p", 2000)] }

/-- `gRound` before anyone answered. -/
def gActive : GameState := { gRound with currentRoundAnswers := [] }

/-- A one-question game sitting in `REVEAL_ANSWER` on its last question. -/
def gLast : GameState := { gRound with phase := .REVEAL_ANSWER }

/-- A store holding only `gLast`, with the active pointer on it. -/
def stLast : Store := { games := [("g1", gLast)], activeGame := some "g1" }

/-! ## Association-list lemmas -/

theorem lookup_cons_eq {β : Type} (k a : String) (v : β) (l : List (String × β)) :
    ((k, v) :: l).lookup a = if a = k then some v else l.lookup a := by
  rw [List.lookup_cons]
  cases h : a == k
  · rw [if_neg (by simpa using h)]
  · rw [if_pos (by simpa using h)]

theorem lookup_append {β : Type} (a : String) (l₁ l₂ : List (String × β)) :
    (l₁ ++ l₂).lookup a = ((l₁.lookup a).or (l₂.lookup a)) := by
  induction l₁ with
  | nil => rfl
  | cons p l ih =>
      obtain ⟨k, v⟩ := p
      rw [List.cons_append, lookup_cons_eq, lookup_cons_eq]
      by_cases h : a = k
      · rw [if_pos h, if_pos h]
        rfl
      · rw [if_neg h, if_neg h, ih]

theorem lookup_eq_none_iff {β : Type} (a : String) (l : List (String × β)) :
    l.lookup a = none ↔ a ∉ l.map Prod.fst := by
  induction l with
  | nil => simp [List.lookup]
  | cons p l ih =>
      obtain ⟨k, v⟩ := p
      rw [lookup_cons_eq]
      by_cases h : a = k <;> simp [h, ih]

theorem lookup_map_keyfix {β : Type} (a k : String) (v : β)
    (l : List (String × β)) (h : a ≠ k) :
    (l.map (fun p => if p.1 = k then (k, v) else p)).lookup a = l.lookup a := by
  induction l with
  | nil => rfl
  | cons p l ih =>
      obtain ⟨k', v'⟩ := p
      dsimp only [List.map_cons]
      by_cases hk : k' = k
      · rw [if_pos hk, lookup_cons_eq, lookup_cons_eq, if_neg h,
          if_neg (fun ha => h (ha.trans hk)), ih]
      · rw [if_neg hk, lookup_cons_eq, lookup_cons_eq]
        by_cases ha : a = k'
        · rw [if_pos ha, if_pos ha]
        · rw [if_neg ha, if_neg ha, ih]

theorem lookup_map_keyfix_self {β : Type} (k : String) (v : β)
    (l : List (String × β)) (hin : l.any (fun p => p.1 == k)) :
    (l.map (fun p => if p.1 = k then (k, v) else p)).lookup k = some v := by
  induction l with
  | nil => simp at hin
  | cons p l ih =>
      obtain ⟨k', v'⟩ := p
      simp only [List.any_cons, Bool.or_eq_true, beq_iff_eq] at hin
      dsimp only [List.map_cons]
      by_cases hk : k' = k
      · rw [if_pos hk, lookup_cons_eq, if_pos rfl]
      · rw [if_neg hk, lookup_cons_eq,
          if_neg (fun hh => hk hh.symm)]
        exact ih (hin.resolve_left hk)

theorem not_any_key {β : Type} (k : String) (m : List (String × β))
    (hm : ¬(m.any (fun p => p.1 == k) = true)) : m.lookup k = none := by
  rw [lookup_eq_none_iff]
  intro hmem
  apply hm
  rw [List.any_eq_true]
  obtain ⟨p, hp, hfst⟩ := List.mem_map.mp hmem
  exact ⟨p, hp, by simpa using hfst⟩

theorem lookup_rset {β : Type} (m : List (String × β)) (k a : String) (v : β) :
    (rset m k v).lookup a = if a = k then some v else m.lookup a := by
  by_cases hin : m.any (fun p => p.1 == k)
  · unfold rset
    rw [if_pos hin]
    by_cases ha : a = k
    · subst ha
      rw [if_pos rfl, lookup_map_keyfix_self a v m hin]
    · rw [if_neg ha, lookup_map_keyfix a k v m ha]
  · unfold rset
    rw [if_neg hin, lookup_append]
    by_cases ha : a = k
    · subst ha
      rw [if_pos rfl, not_any_key a m hin]
      rw [lookup_cons_eq, if_pos rfl]
      rfl
    · rw [if_neg ha,
        show ([(k, v)] : List (String × β)).lookup a = none by
          rw [lookup_cons_eq, if_neg ha]; rfl,
        Option.or_none]

theorem keys_rset {β : Type} (m : List (String × β)) (k : String) (v : β) :
    (rset m k v).map Prod.fst =
      if m.any (fun p => p.1 == k) then m.map Prod.fst
      else m.map Prod.fst ++ [k] := by
  by_cases hm : m.any (fun p => p.1 == k)
  · rw [if_pos hm]
    unfold rset
    rw [if_pos hm, List.map_map]
    apply List.map_congr_left
    intro p _
    by_cases hp : p.1 = k <;> simp [hp]
  · rw [if_neg hm]
    unfold rset
    rw [if_neg hm]
    simp

/-! ## Scoring lemmas -/

theorem roundPoints_eq_round (m D : Nat) (hm : m ≤ D) (hD : 0 < D) :
    (roundPoints m D : ℤ) =
      round ((1000 : ℚ) * (1 - ((m : ℚ) / (D : ℚ)) / 2)) := by
  have hnum : ((2001 * D - 1000 * m : ℕ) : ℚ) / ((2 * D : ℕ) : ℚ) =
      (1000 : ℚ) * (1 - ((m : ℚ) / (D : ℚ)) / 2) + 1 / 2 := by
    have hsub : 1000 * m ≤ 2001 * D := le_trans (by omega)
      (Nat.mul_le_mul_left 2001 hm)
    have hD' : ((D : ℚ)) ≠ 0 := by exact_mod_cast hD.ne'
    push_cast [hsub]
    field_simp
    ring
  have hfloor : roundPoints m D = ⌊((2001 * D - 1000 * m : ℕ) : ℚ) /
      ((2 * D : ℕ) : ℚ)⌋₊ := by
    rw [Nat.floor_div_eq_div]
    rfl
  rw [round_eq, ← hnum, hfloor, Int.natCast_floor_eq_floor]
  positivity

theorem roundPoints_zero (D : Nat) (hD : 0 < D) : roundPoints 0 D = 1000 := by
  unfold roundPoints
  rw [Nat.mul_zero, Nat.sub_zero, show 2001 * D = D + 2 * D * 1000 by ring,
    Nat.add_mul_div_left _ _ (by omega), Nat.div_eq_of_lt (by omega)]

theorem roundPoints_full (D : Nat) (hD : 0 < D) : roundPoints D D = 500 := by
  unfold roundPoints
  rw [← Nat.sub_mul, show (2001 - 1000) * D = D + 2 * D * 500 by ring,
    Nat.add_mul_div_left _ _ (by omega), Nat.div_eq_of_lt (by omega)]

theorem roundPoints_anti (m₁ m₂ D : Nat) (h : m₁ ≤ m₂) :
    roundPoints m₂ D ≤ roundPoints m₁ D :=
  Nat.div_le_div_right
    (Nat.sub_le_sub_left (Nat.mul_le_mul_left 1000 h) (2001 * D))

theorem scoreFn_false (t T : Nat) : scoreFn false t T = 0 := rfl

theorem scoreFn_true_eq (t T : Nat) :
    scoreFn true t T = max 100 (roundPoints (min t (T * 1000)) (T * 1000)) := rfl

theorem scoreFn_min (t T : Nat) : 100 ≤ scoreFn true t T := le_max_left _ _

theorem scoreFn_instant (T : Nat) (hT : 0 < T) : scoreFn true 0 T = 1000 := by
  rw [scoreFn_true_eq, Nat.zero_min, roundPoints_zero _ (by positivity)]
  decide

theorem scoreFn_at_limit (T : Nat) (hT : 0 < T) :
    scoreFn true (T * 1000) T = 500 := by
  rw [scoreFn_true_eq, Nat.min_self, roundPoints_full _ (by positivity)]
  decide

theorem scoreFn_anti (t₁ t₂ T : Nat) (h : t₁ ≤ t₂) :
    scoreFn true t₂ T ≤ scoreFn true t₁ T := by
  rw [scoreFn_true_eq, scoreFn_true_eq]
  exact max_le_max le_rfl
    (roundPoints_anti _ _ _ (min_le_min h le_rfl))

theorem scoreSpec_true_eq (t T : Nat) :
    scoreSpec true t T = max 100 (round ((1000 : ℚ) *
      (1 - (max 0 (min 1 ((t : ℚ) / ((T : ℚ) * 1000)))) / 2))) := rfl

theorem scoreFn_eq_scoreSpec (b : Bool) (t T : Nat) (hT : 0 < T) :
    (scoreFn b t T : ℤ) = scoreSpec b t T := by
  cases b
  · rfl
  · rw [scoreFn_true_eq, scoreSpec_true_eq]
    have hD : (0 : Nat) < T * 1000 := by positivity
    have hDq : (0 : ℚ) < ((T * 1000 : ℕ) : ℚ) := by exact_mod_cast hD
    have hcast : ((T : ℚ) * 1000) = ((T * 1000 : ℕ) : ℚ) := by push_cast; ring
    have hratio : max 0 (min 1 ((t : ℚ) / ((T : ℚ) * 1000))) =
        ((min t (T * 1000) : ℕ) : ℚ) / ((T * 1000 : ℕ) : ℚ) := by
      rw [hcast]
      rcases le_total t (T * 1000) with ht | ht
      · have htq : ((t : ℕ) : ℚ) ≤ ((T * 1000 : ℕ) : ℚ) := by exact_mod_cast ht
        rw [min_eq_left ht, min_eq_right ((div_le_one hDq).mpr htq),
          max_eq_right (by positivity)]
      · have htq : ((T * 1000 : ℕ) : ℚ) ≤ ((t : ℕ) : ℚ) := by exact_mod_cast ht
        rw [min_eq_right ht, div_self hDq.ne',
          min_eq_left ((le_div_iff₀ hDq).mpr (by simpa using htq)),
          max_eq_right (by norm_num)]
    rw [hratio, ← roundPoints_eq_round (min t (T * 1000)) (T * 1000)
      (Nat.min_le_right _ _) hD]
    push_cast
    rfl

/-! ## Decomposing the reveal scoring loop -/

theorem revealFold_step (q : Question) (T : Nat)
    (a : List (String × AnswerRecord)) (s : List (String × Nat))
    (u : String) (r : AnswerRecord) :
    revealFold q T (a, s) (u, r) =
      (a ++ [scoredEntry q T (u, r)], revealScoresStep q T s (u, r)) := by
  by_cases h : (r.answerIndex == q.correctAnswer) = true
  · simp only [revealFold, scoredEntry, revealScoresStep, h, if_true]
  · rw [Bool.not_eq_true] at h
    simp only [revealFold, scoredEntry, revealScoresStep, h,
      Bool.false_eq_true, if_false, scoreFn_false]

theorem revealFold_fst (q : Question) (T : Nat)
    (entries : List (String × AnswerRecord)) :
    ∀ a0 s0, (entries.foldl (revealFold q T) (a0, s0)).1 =
      a0 ++ entries.map (scoredEntry q T) := by
  induction entries with
  | nil => intro a0 s0; simp
  | cons e rest ih =>
      intro a0 s0
      obtain ⟨u, r⟩ := e
      rw [List.foldl_cons, revealFold_step, List.map_cons, ih]
      simp

theorem revealFold_snd (q : Question) (T : Nat)
    (entries : List (String × AnswerRecord)) :
    ∀ a0 s0, (entries.foldl (revealFold q T) (a0, s0)).2 =
      entries.foldl (revealScoresStep q T) s0 := by
  induction entries with
  | nil => intro a0 s0; rfl
  | cons e rest ih =>
      intro a0 s0
      obtain ⟨u, r⟩ := e
      rw [List.foldl_cons, revealFold_step, List.foldl_cons, ih]

theorem scoredEntry_eq (q : Question) (T : Nat) (v : String) (rv : AnswerRecord) :
    scoredEntry q T (v, rv) = (v, rescore q T rv) := rfl

theorem lookup_map_scored (q : Question) (T : Nat) (u : String) :
    ∀ entries : List (String × AnswerRecord),
    (entries.map (scoredEntry q T)).lookup u =
      (entries.lookup u).map (rescore q T) := by
  intro entries
  induction entries with
  | nil => rfl
  | cons e rest ih =>
      obtain ⟨v, rv⟩ := e
      rw [List.map_cons, scoredEntry_eq, lookup_cons_eq, lookup_cons_eq]
      by_cases hv : u = v
      · rw [if_pos hv, if_pos hv]
        rfl
      · rw [if_neg hv, if_neg hv, ih]

theorem revealScores_lookup_notmem (q : Question) (T : Nat) (u : String) :
    ∀ (entries : List (String × AnswerRecord)) (s : List (String × Nat)),
    u ∉ entries.map Prod.fst →
    (entries.foldl (revealScoresStep q T) s).lookup u = s.lookup u := by
  intro entries
  induction entries with
  | nil => intro s _; rfl
  | cons e rest ih =>
      intro s hu
      obtain ⟨v, rv⟩ := e
      rw [List.map_cons] at hu
      have hv : u ≠ v := fun h => hu (h ▸ List.mem_cons_self _ _)
      have hrest : u ∉ rest.map Prod.fst := fun h => hu (List.mem_cons_of_mem _ h)
      rw [List.foldl_cons, ih _ hrest]
      unfold revealScoresStep
      by_cases hc : (rv.answerIndex == q.correctAnswer) = true
      · rw [if_pos hc, lookup_rset, if_neg hv]
      · rw [Bool.not_eq_true] at hc
        rw [hc]
        simp

theorem revealScores_lookup (q : Question) (T : Nat) (u : String)
    (r : AnswerRecord) :
    ∀ (entries : List (String × AnswerRecord)) (s : List (String × Nat)),
    (entries.map Prod.fst).Nodup → entries.lookup u = some r →
    (entries.foldl (revealScoresStep q T) s).lookup u =
      if r.answerIndex == q.correctAnswer then
        some ((s.lookup u).getD 0 + scoreFn true r.timeTakenMs T)
      else s.lookup u := by
  intro entries
  induction entries with
  | nil => intro s _ h; exact absurd h (by simp [List.lookup])
  | cons e rest ih =>
      intro s hnd hl
      obtain ⟨v, rv⟩ := e
      rw [List.map_cons, List.nodup_cons] at hnd
      rw [lookup_cons_eq] at hl
      rw [List.foldl_cons]
      by_cases hv : u = v
      · rw [if_pos hv] at hl
        have h1 : rv = r := by injection hl
        subst hv
        rw [revealScores_lookup_notmem q T u rest _ hnd.1, ← h1]
        unfold revealScoresStep
        by_cases hc : (rv.answerIndex == q.correctAnswer) = true
        · rw [if_pos hc, if_pos hc, lookup_rset, if_pos rfl]
        · rw [Bool.not_eq_true] at hc
          rw [hc]
          simp
      · rw [if_neg hv] at hl
        rw [ih _ hnd.2 hl]
        have hs : (revealScoresStep q T s (v, rv)).lookup u = s.lookup u := by
          unfold revealScoresStep
          by_cases hc : (rv.answerIndex == q.correctAnswer) = true
          · rw [if_pos hc, lookup_rset, if_neg hv]
          · rw [Bool.not_eq_true] at hc
            rw [hc]
            simp
        rw [hs]

theorem any_key_iff {β : Type} (k : String) (m : List (String × β)) :
    (m.any (fun p => p.1 == k)) = true ↔ k ∈ m.map Prod.fst := by
  rw [List.any_eq_true]
  constructor
  · rintro ⟨p, hp, hbeq⟩
    exact List.mem_map.mpr ⟨p, hp, by simpa using hbeq⟩
  · intro hmem
    obtain ⟨p, hp, hf⟩ := List.mem_map.mp hmem
    exact ⟨p, hp, by simpa using hf⟩

theorem keys_map_scored (q : Question) (T : Nat)
    (entries : List (String × AnswerRecord)) :
    (entries.map (scoredEntry q T)).map Prod.fst = entries.map Prod.fst := by
  rw [List.map_map]
  apply List.map_congr_left
  intro e _
  rfl

/-! ## Claim C1 -/

/-- C1: for every game record and every non-host viewer, the projection of
the visibility filter during `STARTING`, `QUESTION_ACTIVE`,
`QUESTION_READ` and `WAITING_FOR_HOST` contains a `currentQuestion` with
only the text and answers fields and never the correct-option index
(`correctAnswer := none`); during `REVEAL_ANSWER` it contains the full
current question including the correct index and, if the viewer has an
entry in `currentRoundAnswers`, a `roundResult` whose `isCorrect` equals
the comparison of the submitted index with the question's correct
index. -/
theorem claim1_visibility (g : GameState) (u : String) (q : Question)
    (hu : g.hostId ≠ u)
    (hq : questionAt g.questions g.currentQuestionIndex = some q) :
    ((g.phase = .STARTING ∨ g.phase = .QUESTION_ACTIVE ∨
        g.phase = .QUESTION_READ ∨ g.phase = .WAITING_FOR_HOST) →
      sanitizeGameState g u = .player { playerBase g u with
        currentQuestion := some ⟨q.text, q.answers, none⟩ }) ∧
    (g.phase = .REVEAL_ANSWER →
      (g.currentRoundAnswers.lookup u = none →
        sanitizeGameState g u = .player { playerBase g u with
          currentQuestion := some ⟨q.text, q.answers, some q.correctAnswer⟩ }) ∧
      (∀ r, g.currentRoundAnswers.lookup u = some r →
        sanitizeGameState g u = .player { playerBase g u with
          currentQuestion := some ⟨q.text, q.answers, some q.correctAnswer⟩
          roundResult := some ⟨r.answerIndex, r.scoreEarned,
            r.answerIndex == q.correctAnswer⟩ })) := by
  have hbeq : (g.hostId == u) = false := by simpa using hu
  constructor
  · intro hphase
    have hcond : (g.phase == GamePhase.QUESTION_ACTIVE ||
        g.phase == GamePhase.QUESTION_READ ||
        g.phase == GamePhase.WAITING_FOR_HOST ||
        g.phase == GamePhase.STARTING) = true := by
      rcases hphase with h | h | h | h <;> rw [h] <;> rfl
    simp only [sanitizeGameState, hbeq, Bool.false_eq_true, if_false, hq,
      hcond, if_true]
  · intro hrev
    have hcond : (g.phase == GamePhase.QUESTION_ACTIVE ||
        g.phase == GamePhase.QUESTION_READ ||
        g.phase == GamePhase.WAITING_FOR_HOST ||
        g.phase == GamePhase.STARTING) = false := by
      rw [hrev]; rfl
    have hrevb : (g.phase == GamePhase.REVEAL_ANSWER) = true := by
      rw [hrev]; rfl
    constructor
    · intro hnone
      simp only [sanitizeGameState, hbeq, Bool.false_eq_true, if_false, hq,
        hcond, hrevb, if_true, hnone]
    · intro r hr
      simp only [sanitizeGameState, hbeq, Bool.false_eq_true, if_false, hq,
        hcond, hrevb, if_true, hr]

/-- Witness for C1: in the fixture game `gRound` (phase
`QUESTION_ACTIVE`) the non-host viewer `"p"` receives the question with
`correctAnswer` omitted. -/
theorem claim1_visibility_witness :
    gRound.hostId ≠ "p" ∧
    sanitizeGameState gRound "p" = .player { playerBase gRound "p" with
      currentQuestion := some ⟨qA.text, qA.answers, none⟩ } :=
  ⟨by decide, (claim1_visibility gRound "p" qA (by decide) (by decide)).1
    (Or.inr (Or.inl (by decide)))⟩

/-! ## Claim C2 -/

/-- C2: at the reveal transition every entry of `currentRoundAnswers` is
rescored: 0 when the submitted index differs from the correct index, and
otherwise `max(100, round(1000·(1 − clamp(elapsedMs/(T·1000),0,1)/2)))`
(stated via `scoreSpec`, the claim's formula in exact rational
arithmetic); in particular a correct answer earns at least 100 and an
instant correct answer earns 1000. -/
theorem claim2_reveal_scoring (g : GameState) (c : String) (q : Question)
    (g' : GameState) (u : String) (r : AnswerRecord)
    (hq : questionAt g.questions g.currentQuestionIndex = some q)
    (hok : RevealAnswer g c = .ok g')
    (hT : 0 < g.timeLimitSeconds)
    (hr : g.currentRoundAnswers.lookup u = some r) :
    g'.currentRoundAnswers.lookup u =
      some (rescore q g.timeLimitSeconds r) ∧
    ((rescore q g.timeLimitSeconds r).scoreEarned : ℤ) =
      scoreSpec (r.answerIndex == q.correctAnswer) r.timeTakenMs
        g.timeLimitSeconds ∧
    (r.answerIndex ≠ q.correctAnswer →
      (rescore q g.timeLimitSeconds r).scoreEarned = 0) ∧
    (r.answerIndex = q.correctAnswer →
      100 ≤ (rescore q g.timeLimitSeconds r).scoreEarned ∧
      (r.timeTakenMs = 0 →
        (rescore q g.timeLimitSeconds r).scoreEarned = 1000)) := by
  unfold RevealAnswer at hok
  rw [hq] at hok
  by_cases hhost : (g.hostId != c) = true
  · rw [if_pos hhost] at hok
    exact absurd hok (fun h => Except.noConfusion h)
  · rw [if_neg hhost] at hok
    have hg' : g' = { g with
        currentRoundAnswers := (g.currentRoundAnswers.foldl
          (revealFold q g.timeLimitSeconds) ([], g.scores)).1
        scores := (g.currentRoundAnswers.foldl
          (revealFold q g.timeLimitSeconds) ([], g.scores)).2
        phase := .REVEAL_ANSWER } := by
      injection hok with h
      exact h.symm
    refine ⟨?_, ?_, ?_, ?_⟩
    · rw [hg']
      show ((g.currentRoundAnswers.foldl
        (revealFold q g.timeLimitSeconds) ([], g.scores)).1).lookup u = _
      rw [revealFold_fst, List.nil_append, lookup_map_scored, hr]
      rfl
    · exact scoreFn_eq_scoreSpec _ _ _ hT
    · intro hne
      have hb : (r.answerIndex == q.correctAnswer) = false := by simpa using hne
      show scoreFn (r.answerIndex == q.correctAnswer) _ _ = 0
      rw [hb]
      rfl
    · intro heq
      have hb : (r.answerIndex == q.correctAnswer) = true := by simpa using heq
      constructor
      · show 100 ≤ scoreFn (r.answerIndex == q.correctAnswer) _ _
        rw [hb]
        exact scoreFn_min _ _
      · intro ht
        show scoreFn (r.answerIndex == q.correctAnswer) _ _ = 1000
        rw [hb, ht]
        exact scoreFn_instant _ hT

/-- Witness for C2: revealing the fixture round rescores `"p"`'s instant
correct answer to 1000. -/
theorem claim2_reveal_scoring_witness :
    RevealAnswer gRound "h" = .ok gRevealed ∧
    (gRevealed.currentRoundAnswers.lookup "p" =
      some (rescore qA gRound.timeLimitSeconds ⟨1, 0, 0, 0⟩) ∧
    ((rescore qA gRound.timeLimitSeconds
        (⟨1, 0, 0, 0⟩ : AnswerRecord)).scoreEarned : ℤ) =
      scoreSpec ((1 : Int) == qA.correctAnswer) 0 gRound.timeLimitSeconds ∧
    ((1 : Int) ≠ qA.correctAnswer →
      (rescore qA gRound.timeLimitSeconds
        (⟨1, 0, 0, 0⟩ : AnswerRecord)).scoreEarned = 0) ∧
    ((1 : Int) = qA.correctAnswer →
      100 ≤ (rescore qA gRound.timeLimitSeconds
        (⟨1, 0, 0, 0⟩ : AnswerRecord)).scoreEarned ∧
      ((0 : Nat) = 0 →
        (rescore qA gRound.timeLimitSeconds
          (⟨1, 0, 0, 0⟩ : AnswerRecord)).scoreEarned = 1000))) :=
  ⟨by decide, claim2_reveal_scoring gRound "h" qA gRevealed "p" ⟨1, 0, 0, 0⟩
    (by decide) (by decide) (by decide) (by decide)⟩

/-! ## Claim C3 -/

/-- C3 counterexample: the claim (and spec §8) says
`score(true, T*1000, T) == 100`, but the implemented scoring function
yields 500 at the exact time limit (`ratio = 1` gives
`round(1000·(1−1/2)) = 500`, and `max(100, 500) = 500`). -/
theorem claim3_counterexample :
    scoreFn true (30 * 1000) 30 = 500 ∧ scoreFn true (30 * 1000) 30 ≠ 100 := by
  constructor <;> decide

/-- C3 (amended): for every positive time limit `T` the scoring function
satisfies `score(true, 0, T) = 1000`, `score(true, T*1000, T) = 500` (not
100 as claimed), `score(false, _, T) = 0`, and for a fixed correct answer
the score is monotonically non-increasing in `elapsedMs`. -/
theorem claim3_scoring (T t t₁ t₂ : Nat) (hT : 0 < T) :
    scoreFn true 0 T = 1000 ∧
    scoreFn true (T * 1000) T = 500 ∧
    scoreFn false t T = 0 ∧
    (t₁ ≤ t₂ → scoreFn true t₂ T ≤ scoreFn true t₁ T) :=
  ⟨scoreFn_instant T hT, scoreFn_at_limit T hT, scoreFn_false t T,
   fun h => scoreFn_anti t₁ t₂ T h⟩

/-- Witness for C3 at `T = 30`, `t = 5`, `t₁ = 3 ≤ t₂ = 7`. -/
theorem claim3_scoring_witness :
    (0 < 30) ∧
    (scoreFn true 0 30 = 1000 ∧
     scoreFn true (30 * 1000) 30 = 500 ∧
     scoreFn false 5 30 = 0 ∧
     (3 ≤ 7 → scoreFn true 7 30 ≤ scoreFn true 3 30)) :=
  ⟨by decide, claim3_scoring 30 5 3 7 (by decide)⟩

/-! ## Claim C4 -/

/-- C4 counterexample: the claim says a host's `start` outside `LOBBY`
fails and leaves the record unchanged, but the handler has no phase
precondition: in `QUESTION_ACTIVE` the host's `start` succeeds and
rewrites the record. -/
theorem claim4_counterexample :
    gRound.phase ≠ .LOBBY ∧
    StartGame gRound "h" [qA] none 5 =
      .ok { gRound with
              questions := [qA]
              phase := .STARTING
              phaseStartTime := 5
              currentQuestionIndex := 0
              currentRoundAnswers := [] } := by
  constructor <;> decide

/-- C4 (amended): a non-host's `start`/`next` fail with `Forbidden` and
do not mutate the record, but neither handler checks the phase: a host's
`start` with a valid non-empty question list succeeds from any phase,
and a host's `next` in a phase outside `STARTING`, `REVEAL_ANSWER`,
`LEADERBOARD` reports success while persisting the record unchanged
rather than failing. -/
theorem claim4_preconditions :
    (∀ (g : GameState) (c : String) (qs : List Question)
        (tl : Option Int) (now : Nat), g.hostId ≠ c →
      StartGame g c qs tl now = .error .forbidden) ∧
    (∀ (g : GameState) (c : String) (now : Nat), g.hostId ≠ c →
      Advance g c now = .error .forbidden) ∧
    (∀ (g : GameState) (c : String) (qs : List Question)
        (tl : Option Int) (now : Nat), g.hostId = c → qs ≠ [] →
      qs.all validQuestion = true →
      StartGame g c qs tl now = .ok { g with
        questions := qs
        timeLimitSeconds :=
          match tl with
          | some t => (max 5 (min 120 t)).toNat
          | none => g.timeLimitSeconds
        phase := .STARTING
        phaseStartTime := now
        currentQuestionIndex := 0
        currentRoundAnswers := [] }) ∧
    (∀ (g : GameState) (c : String) (now : Nat), g.hostId = c →
      g.phase ≠ .STARTING → g.phase ≠ .REVEAL_ANSWER →
      g.phase ≠ .LEADERBOARD → Advance g c now = .ok g) := by
  refine ⟨?_, ?_, ?_, ?_⟩
  · intro g c qs tl now h
    unfold StartGame
    rw [if_pos (by simpa using h)]
  · intro g c now h
    unfold Advance
    rw [if_pos (by simpa using h)]
  · intro g c qs tl now hc hqs hall
    unfold StartGame
    rw [if_neg (by simp [hc]), if_neg (by simpa using hqs),
      if_neg (by simp [hall])]
  · intro g c now hc h1 h2 h3
    unfold Advance nextStep
    rw [if_neg (by simp [hc]), if_neg h1,
      if_neg (fun h => h.elim h2 h3)]

/-- Witness for C4: a host's `next` on the `QUESTION_ACTIVE` fixture
reports success and leaves the record unchanged. -/
theorem claim4_preconditions_witness :
    gRound.hostId = "h" ∧ gRound.phase ≠ .STARTING ∧
    gRound.phase ≠ .REVEAL_ANSWER ∧ gRound.phase ≠ .LEADERBOARD ∧
    Advance gRound "h" 9 = .ok gRound :=
  ⟨rfl, by decide, by decide, by decide,
   claim4_preconditions.2.2.2 gRound "h" 9 rfl (by decide) (by decide)
     (by decide)⟩

/-! ## Claim C5 -/

/-- C5: `SubmitAnswer` records exactly
`{answerIndex, elapsedMs, scoreEarned 0, timestamp}` under the caller if
and only if the phase is `QUESTION_ACTIVE`, the caller is a player, the
caller has no existing entry, the elapsed time is within the grace
window, and the index is within the bounds of the current question's
answers; a duplicate yields the duplicate-submission error, a late
submission the time-expired error (an error return means the handler
never persisted, so the stored record is unchanged), and a successful
submission preserves at-most-one-entry-per-player. -/
theorem claim5_submit_answer (g : GameState) (c : String) (i : Int)
    (now : Nat) :
    ((∃ g', SubmitAnswer g c i now = .ok g') ↔
      (g.phase = .QUESTION_ACTIVE ∧ c ∈ g.players ∧
       g.currentRoundAnswers.lookup c = none ∧
       now - g.phaseStartTime ≤ g.timeLimitSeconds * 1000 + 2000 ∧
       ∃ q, questionAt g.questions g.currentQuestionIndex = some q ∧
         0 ≤ i ∧ i < (q.answers.length : Int))) ∧
    (∀ g', SubmitAnswer g c i now = .ok g' →
      g' = { g with
              currentRoundAnswers := rset g.currentRoundAnswers c
                ⟨i, now - g.phaseStartTime, 0, now⟩ } ∧
      ((g.currentRoundAnswers.map Prod.fst).Nodup →
        (g'.currentRoundAnswers.map Prod.fst).Nodup)) ∧
    (g.phase = .QUESTION_ACTIVE → c ∈ g.players →
      (g.currentRoundAnswers.lookup c).isSome →
      SubmitAnswer g c i now = .error .alreadyAnswered) ∧
    (g.phase = .QUESTION_ACTIVE → c ∈ g.players →
      g.currentRoundAnswers.lookup c = none →
      g.timeLimitSeconds * 1000 + 2000 < now - g.phaseStartTime →
      SubmitAnswer g c i now = .error .timeExpired) := by
  refine ⟨⟨?_, ?_⟩, ?_, ?_, ?_⟩
  · rintro ⟨g', hok⟩
    unfold SubmitAnswer at hok
    by_cases h1 : (g.phase != GamePhase.QUESTION_ACTIVE) = true
    · rw [if_pos h1] at hok
      exact absurd hok (fun h => Except.noConfusion h)
    rw [if_neg h1] at hok
    by_cases h2 : (!g.players.contains c) = true
    · rw [if_pos h2] at hok
      exact absurd hok (fun h => Except.noConfusion h)
    rw [if_neg h2] at hok
    by_cases h3 : (g.currentRoundAnswers.lookup c).isSome = true
    · rw [if_pos h3] at hok
      exact absurd hok (fun h => Except.noConfusion h)
    rw [if_neg h3] at hok
    by_cases h4 : g.timeLimitSeconds * 1000 + 2000 < now - g.phaseStartTime
    · rw [if_pos h4] at hok
      exact absurd hok (fun h => Except.noConfusion h)
    rw [if_neg h4] at hok
    by_cases h5 : i < 0
    · rw [if_pos h5] at hok
      exact absurd hok (fun h => Except.noConfusion h)
    rw [if_neg h5] at hok
    cases hq : questionAt g.questions g.currentQuestionIndex with
    | none =>
        rw [hq] at hok
        simp only [] at hok
        exact absurd hok (fun h => Except.noConfusion h)
    | some q =>
        rw [hq] at hok
        simp only [] at hok
        by_cases h6 : (q.answers.length : Int) ≤ i
        · rw [if_pos h6] at hok
          exact absurd hok (fun h => Except.noConfusion h)
        · exact ⟨by simpa using h1, by simpa using h2,
            Option.not_isSome_iff_eq_none.mp h3, le_of_not_lt h4,
            q, rfl, le_of_not_lt h5, lt_of_not_le h6⟩
  · rintro ⟨h1, h2, h3, h4, q, hq, hi0, hilen⟩
    refine ⟨{ g with
                currentRoundAnswers := rset g.currentRoundAnswers c
                  ⟨i, now - g.phaseStartTime, 0, now⟩ }, ?_⟩
    unfold SubmitAnswer
    rw [if_neg (by simp [h1]), if_neg (by simp [h2]), if_neg (by simp [h3]),
      if_neg (not_lt.mpr h4), if_neg (not_lt.mpr hi0)]
    simp only [hq]
    rw [if_neg (not_le.mpr hilen)]
  · intro g' hok
    unfold SubmitAnswer at hok
    by_cases h1 : (g.phase != GamePhase.QUESTION_ACTIVE) = true
    · rw [if_pos h1] at hok
      exact absurd hok (fun h => Except.noConfusion h)
    rw [if_neg h1] at hok
    by_cases h2 : (!g.players.contains c) = true
    · rw [if_pos h2] at hok
      exact absurd hok (fun h => Except.noConfusion h)
    rw [if_neg h2] at hok
    by_cases h3 : (g.currentRoundAnswers.lookup c).isSome = true
    · rw [if_pos h3] at hok
      exact absurd hok (fun h => Except.noConfusion h)
    rw [if_neg h3] at hok
    by_cases h4 : g.timeLimitSeconds * 1000 + 2000 < now - g.phaseStartTime
    · rw [if_pos h4] at hok
      exact absurd hok (fun h => Except.noConfusion h)
    rw [if_neg h4] at hok
    by_cases h5 : i < 0
    · rw [if_pos h5] at hok
      exact absurd hok (fun h => Except.noConfusion h)
    rw [if_neg h5] at hok
    cases hq : questionAt g.questions g.currentQuestionIndex with
    | none =>
        rw [hq] at hok
        simp only [] at hok
        exact absurd hok (fun h => Except.noConfusion h)
    | some q =>
        rw [hq] at hok
        simp only [] at hok
        by_cases h6 : (q.answers.length : Int) ≤ i
        · rw [if_pos h6] at hok
          exact absurd hok (fun h => Except.noConfusion h)
        · rw [if_neg h6] at hok
          injection hok with h
          subst h
          refine ⟨rfl, ?_⟩
          intro hnd
          have hno : g.currentRoundAnswers.lookup c = none :=
            Option.not_isSome_iff_eq_none.mp h3
          have hmem : c ∉ g.currentRoundAnswers.map Prod.fst :=
            (lookup_eq_none_iff _ _).mp hno
          have hany : (g.currentRoundAnswers.any (fun p => p.1 == c)) =
              false := by
            rw [← Bool.not_eq_true, any_key_iff]
            exact hmem
          show ((rset g.currentRoundAnswers c _).map Prod.fst).Nodup
          rw [keys_rset, if_neg (by simp [hany])]
          simp [List.nodup_append, hnd, hmem]
  · intro h1 h2 h3
    unfold SubmitAnswer
    rw [if_neg (by simp [h1]), if_neg (by simp [h2]), if_pos h3]
  · intro h1 h2 h3 h4
    unfold SubmitAnswer
    rw [if_neg (by simp [h1]), if_neg (by simp [h2]), if_neg (by simp [h3]),
      if_pos h4]

/-- Witness for C5: a second answer from `"p"` (who already answered in
`gRound`) is rejected as a duplicate. -/
theorem claim5_submit_answer_witness :
    gRound.phase = .QUESTION_ACTIVE ∧ "p" ∈ gRound.players ∧
    (gRound.currentRoundAnswers.lookup "p").isSome ∧
    SubmitAnswer gRound "p" 0 5 = .error .alreadyAnswered :=
  ⟨by decide, by decide, by decide,
   (claim5_submit_answer gRound "p" 0 5).2.2.1 (by decide) (by decide)
     (by decide)⟩

/-! ## Claim C6 -/

theorem lookup_foldl_zero_notmem (l : List String) :
    ∀ (m : List (String × Nat)) (p : String), p ∉ l →
    (l.foldl (fun m pid => rset m pid 0) m).lookup p = m.lookup p := by
  induction l with
  | nil => intro m p _; rfl
  | cons x l ih =>
      intro m p hp
      rw [List.foldl_cons, ih _ _ (fun h => hp (List.mem_cons_of_mem _ h)),
        lookup_rset, if_neg (fun h => hp (by rw [h]; exact List.mem_cons_self _ _))]

theorem lookup_foldl_zero (l : List String) :
    ∀ (m : List (String × Nat)) (p : String), p ∈ l →
    (l.foldl (fun m pid => rset m pid 0) m).lookup p = some 0 := by
  induction l with
  | nil => intro _ _ h; cases h
  | cons x l ih =>
      intro m p hp
      rw [List.foldl_cons]
      by_cases hmem : p ∈ l
      · exact ih _ _ hmem
      · have hpx : p = x := by
          rcases List.mem_cons.mp hp with h | h
          · exact h
          · exact absurd h hmem
        subst hpx
        rw [lookup_foldl_zero_notmem l _ _ hmem, lookup_rset, if_pos rfl]

/-- C6: applying the host's `reset` to any game record yields phase
`LOBBY`, `currentQuestionIndex = -1`, empty questions, empty
`currentRoundAnswers`, the players list unchanged, and a score entry of
0 for every current player. -/
theorem claim6_reset (g : GameState) (c : String) (now : Nat)
    (g' : GameState) (hok : ResetGame g c now = .ok g') :
    g'.phase = .LOBBY ∧ g'.currentQuestionIndex = -1 ∧ g'.questions = [] ∧
    g'.currentRoundAnswers = [] ∧ g'.players = g.players ∧
    (∀ p ∈ g.players, g'.scores.lookup p = some 0) := by
  unfold ResetGame at hok
  by_cases hhost : (g.hostId != c) = true
  · rw [if_pos hhost] at hok
    exact absurd hok (fun h => Except.noConfusion h)
  · rw [if_neg hhost] at hok
    injection hok with h
    subst h
    exact ⟨rfl, rfl, rfl, rfl, rfl,
      fun p hp => lookup_foldl_zero _ _ _ hp⟩

/-- `gRound` after the host's reset. -/
def gReset : GameState :=
  { gRound with
      phase := .LOBBY
      currentQuestionIndex := -1
      questions := []
      currentRoundAnswers := []
      phaseStartTime := 7
      scores := [("h", 0), ("p", 0)] }

/-- Witness for C6: resetting the fixture round. -/
theorem claim6_reset_witness :
    ResetGame gRound "h" 7 = .ok gReset ∧
    (gReset.phase = .LOBBY ∧ gReset.currentQuestionIndex = -1 ∧
     gReset.questions = [] ∧ gReset.currentRoundAnswers = [] ∧
     gReset.players = gRound.players ∧
     (∀ p ∈ gRound.players, gReset.scores.lookup p = some 0)) :=
  ⟨by decide, claim6_reset gRound "h" 7 gReset (by decide)⟩

/-! ## Claim C7 -/

theorem clamp_bounds (t : Int) :
    5 ≤ (max 5 (min 120 t)).toNat ∧ (max 5 (min 120 t)).toNat ≤ 120 := by
  have h5 : (5 : ℤ) ≤ max 5 (min 120 t) := le_max_left _ _
  have h120 : max 5 (min 120 t) ≤ 120 := max_le (by norm_num) (min_le_left _ _)
  omega

theorem T_joinGame {g g' : GameState} {u : String}
    (hok : joinGame g u = .ok g') :
    g'.timeLimitSeconds = g.timeLimitSeconds := by
  unfold joinGame at hok
  repeat' split at hok
  all_goals first
    | exact absurd hok (fun h => Except.noConfusion h)
    | (injection hok with h; rw [← h])

theorem T_StartGame {g g' : GameState} {c : String} {qs : List Question}
    {tl : Option Int} {now : Nat} (hok : StartGame g c qs tl now = .ok g') :
    (tl = none ∧ g'.timeLimitSeconds = g.timeLimitSeconds) ∨
    (∃ t, tl = some t ∧
      g'.timeLimitSeconds = (max 5 (min 120 t)).toNat) := by
  unfold StartGame at hok
  repeat' split at hok
  all_goals try exact absurd hok (fun h => Except.noConfusion h)
  · injection hok with h
    rename_i t
    exact Or.inr ⟨t, rfl, by rw [← h]⟩
  · injection hok with h
    exact Or.inl ⟨rfl, by rw [← h]⟩

theorem nextStep_T (g : GameState) (now : Nat) :
    (nextStep g now).timeLimitSeconds = g.timeLimitSeconds := by
  unfold nextStep
  repeat' split
  all_goals rfl

theorem T_Advance {g g' : GameState} {c : String} {now : Nat}
    (hok : Advance g c now = .ok g') :
    g'.timeLimitSeconds = g.timeLimitSeconds := by
  unfold Advance at hok
  split at hok
  · exact absurd hok (fun h => Except.noConfusion h)
  · injection hok with h
    rw [← h, nextStep_T]

theorem T_SubmitAnswer {g g' : GameState} {c : String} {i : Int} {now : Nat}
    (hok : SubmitAnswer g c i now = .ok g') :
    g'.timeLimitSeconds = g.timeLimitSeconds := by
  unfold SubmitAnswer at hok
  simp only [] at hok
  repeat' split at hok
  all_goals first
    | exact absurd hok (fun h => Except.noConfusion h)
    | (injection hok with h; rw [← h])

theorem T_RevealAnswer {g g' : GameState} {c : String}
    (hok : RevealAnswer g c = .ok g') :
    g'.timeLimitSeconds = g.timeLimitSeconds := by
  unfold RevealAnswer at hok
  repeat' split at hok
  all_goals first
    | exact absurd hok (fun h => Except.noConfusion h)
    | (injection hok with h; rw [← h])

theorem T_ShowLeaderboard {g g' : GameState} {c : String}
    (hok : ShowLeaderboard g c = .ok g') :
    g'.timeLimitSeconds = g.timeLimitSeconds := by
  unfold ShowLeaderboard at hok
  split at hok
  · exact absurd hok (fun h => Except.noConfusion h)
  · injection hok with h
    rw [← h]

theorem T_ResetGame {g g' : GameState} {c : String} {now : Nat}
    (hok : ResetGame g c now = .ok g') :
    g'.timeLimitSeconds = g.timeLimitSeconds := by
  unfold ResetGame at hok
  split at hok
  · exact absurd hok (fun h => Except.noConfusion h)
  · injection hok with h
    rw [← h]

theorem applyCmd_T {c : Cmd} {g g' : GameState} (hok : applyCmd c g = .ok g') :
    5 ≤ g.timeLimitSeconds → g.timeLimitSeconds ≤ 120 →
    5 ≤ g'.timeLimitSeconds ∧ g'.timeLimitSeconds ≤ 120 := by
  intro h5 h120
  cases c with
  | join u => rw [T_joinGame hok]; exact ⟨h5, h120⟩
  | start c qs tl now =>
      rcases T_StartGame hok with ⟨_, hT⟩ | ⟨t, _, hT⟩
      · rw [hT]; exact ⟨h5, h120⟩
      · rw [hT]; exact clamp_bounds t
  | next c now => rw [T_Advance hok]; exact ⟨h5, h120⟩
  | answer c i now => rw [T_SubmitAnswer hok]; exact ⟨h5, h120⟩
  | reveal c => rw [T_RevealAnswer hok]; exact ⟨h5, h120⟩
  | leaderboard c => rw [T_ShowLeaderboard hok]; exact ⟨h5, h120⟩
  | reset c now => rw [T_ResetGame hok]; exact ⟨h5, h120⟩

/-- C7: in every reachable game record `timeLimitSeconds` lies in
`[5,120]`; creation sets it to 30, a host `start` clamps a supplied 999
to 120, and every command other than `start` leaves it unchanged. -/
theorem claim7_time_limit :
    (∀ g, Reachable g →
      5 ≤ g.timeLimitSeconds ∧ g.timeLimitSeconds ≤ 120) ∧
    (∀ hostId gameId now,
      (newGame hostId gameId now).timeLimitSeconds = 30) ∧
    (∀ (g : GameState) (c : String) (qs : List Question) (now : Nat)
        (g' : GameState), StartGame g c qs (some 999) now = .ok g' →
      g'.timeLimitSeconds = 120) ∧
    (∀ (cmd : Cmd) (g g' : GameState), applyCmd cmd g = .ok g' →
      (match cmd with
       | .start _ _ _ _ => True
       | _ => g'.timeLimitSeconds = g.timeLimitSeconds)) := by
  refine ⟨?_, fun _ _ _ => rfl, ?_, ?_⟩
  · intro g h
    induction h with
    | init hostId gameId now => exact show 5 ≤ 30 ∧ 30 ≤ 120 by decide
    | step c hr hok ih => exact applyCmd_T hok ih.1 ih.2
  · intro g c qs now g' hok
    rcases T_StartGame hok with ⟨hnone, _⟩ | ⟨t, ht, hT⟩
    · exact absurd hnone (fun h => Option.noConfusion h)
    · injection ht with ht'
      rw [hT, ← ht']
      decide
  · intro cmd g g' hok
    cases cmd with
    | join u => exact T_joinGame hok
    | start c qs tl now => trivial
    | next c now => exact T_Advance hok
    | answer c i now => exact T_SubmitAnswer hok
    | reveal c => exact T_RevealAnswer hok
    | leaderboard c => exact T_ShowLeaderboard hok
    | reset c now => exact T_ResetGame hok

/-- Witness for C7: the freshly created game is reachable and within
bounds. -/
theorem claim7_time_limit_witness :
    5 ≤ (newGame "894118872712613898" "g0" 0).timeLimitSeconds ∧
    (newGame "894118872712613898" "g0" 0).timeLimitSeconds ≤ 120 :=
  claim7_time_limit.1 (newGame "894118872712613898" "g0" 0)
    (Reachable.init "894118872712613898" "g0" 0)

/-! ## Claim C8 -/

/-- `gLast` marked finished by the host's `next`. -/
def gFin : GameState := { gLast with phase := .FINISHED }

/-- `stLast` after the finishing `next`: record finished, pointer
cleared. -/
def stFin : Store := { games := [("g1", gFin)], activeGame := none }

/-- `stFin` after an allow-listed host (who was never a player of the
finished game) connects: a fresh game is created. -/
def stNew : Store :=
  { games := [("g1", gFin), ("g2", newGame "894118872712613898" "g2" 4)],
    activeGame := some "g2" }

/-- C8 counterexample: after the finishing `next` cleared the pointer, a
`Connect` by the allow-listed user `"894118872712613898"` — who was never
a player of the finished game — does not receive a "no active game"
error: it creates and returns a fresh game. -/
theorem claim8_counterexample :
    stFin.activeGame = none ∧
    (∀ p ∈ gFin.players, p ≠ "894118872712613898") ∧
    Connect stFin "894118872712613898" "g2" 4 = .ok (stNew, "g2") := by
  refine ⟨rfl, by decide, by decide⟩

/-- C8 (amended): when `next` fires in `REVEAL_ANSWER`/`LEADERBOARD` on
the last question, the record becomes `FINISHED` and the active-game
pointer is cleared; a subsequent `Connect` by a user who is not on the
host allow-list receives the "no active game" error (an allow-listed
user instead creates a fresh game). -/
theorem claim8_finish (st : Store) (gid : String) (g : GameState)
    (now : Nat) (st' : Store)
    (hg : st.games.lookup gid = some g)
    (hphase : g.phase = .REVEAL_ANSWER ∨ g.phase = .LEADERBOARD)
    (hlast : (g.questions.length : Int) ≤ g.currentQuestionIndex + 1)
    (hok : AdvanceStore st gid g.hostId now = .ok st') :
    st'.activeGame = none ∧
    st'.games.lookup gid = some { g with phase := .FINISHED } ∧
    (∀ u newId now2, u ∉ ALLOWED_HOSTS →
      Connect st' u newId now2 = .error .noActiveGame) := by
  unfold AdvanceStore at hok
  rw [hg] at hok
  simp only [] at hok
  rw [if_neg (by simp)] at hok
  rw [if_neg (by rcases hphase with h | h <;> simp [h]), if_pos hphase,
    if_pos hlast] at hok
  injection hok with h
  subst h
  refine ⟨rfl, ?_, ?_⟩
  · show (rset st.games gid { g with phase := .FINISHED }).lookup gid = _
    rw [lookup_rset, if_pos rfl]
  · intro u newId now2 hu
    show connectFresh _ u newId now2 = Except.error GameErr.noActiveGame
    unfold connectFresh
    rw [if_pos (by simpa using hu)]

/-- Witness for C8: finishing the one-question fixture game clears the
pointer and a non-allow-listed stranger's connect fails. -/
theorem claim8_finish_witness :
    stLast.games.lookup "g1" = some gLast ∧
    AdvanceStore stLast "g1" gLast.hostId 3 = .ok stFin ∧
    (stFin.activeGame = none ∧
     stFin.games.lookup "g1" = some { gLast with phase := .FINISHED } ∧
     (∀ u newId now2, u ∉ ALLOWED_HOSTS →
       Connect stFin u newId now2 = .error .noActiveGame)) :=
  ⟨by decide, by decide,
   claim8_finish stLast "g1" gLast 3 stFin (by decide) (Or.inl (by decide))
     (by decide) (by decide)⟩

/-! ## Claim C9 -/

theorem nextStep_finish (g : GameState) (now : Nat)
    (hphase : g.phase = .REVEAL_ANSWER ∨ g.phase = .LEADERBOARD)
    (hlast : (g.questions.length : Int) ≤ g.currentQuestionIndex + 1) :
    nextStep g now = { g with phase := .FINISHED } := by
  unfold nextStep
  rw [if_neg (by rcases hphase with h | h <;> simp [h]), if_pos hphase,
    if_pos hlast]

theorem nextStep_advance (g : GameState) (now : Nat)
    (hphase : g.phase = .REVEAL_ANSWER ∨ g.phase = .LEADERBOARD)
    (hmore : g.currentQuestionIndex + 1 < (g.questions.length : Int)) :
    nextStep g now = { g with
      currentQuestionIndex := g.currentQuestionIndex + 1
      phase := .QUESTION_ACTIVE
      phaseStartTime := now
      currentRoundAnswers := [] } := by
  unfold nextStep
  rw [if_neg (by rcases hphase with h | h <;> simp [h]), if_pos hphase,
    if_neg (not_le.mpr hmore)]

theorem nextStep_noop (g : GameState) (now : Nat)
    (h1 : g.phase ≠ .STARTING) (h2 : g.phase ≠ .REVEAL_ANSWER)
    (h3 : g.phase ≠ .LEADERBOARD) : nextStep g now = g := by
  unfold nextStep
  rw [if_neg h1, if_neg (fun h => h.elim h2 h3)]

/-- A second serialized `next` right after one from `REVEAL_ANSWER` is a
no-op: the first lands in `QUESTION_ACTIVE` or `FINISHED`, where `next`
leaves the record unchanged. -/
theorem nextStep_idem (g : GameState) (nowA nowB : Nat)
    (hph : g.phase = .REVEAL_ANSWER) :
    nextStep (nextStep g nowA) nowB = nextStep g nowA := by
  rcases le_or_lt (g.questions.length : Int) (g.currentQuestionIndex + 1)
    with hc | hc
  · rw [nextStep_finish g nowA (Or.inl hph) hc]
    exact nextStep_noop _ _ (by simp) (by simp) (by simp)
  · rw [nextStep_advance g nowA (Or.inl hph) hc]
    exact nextStep_noop _ _ (by simp) (by simp) (by simp)

theorem nextStep_outcome (g : GameState) (now : Nat)
    (hph : g.phase = .REVEAL_ANSWER) :
    ((g.questions.length : Int) ≤ g.currentQuestionIndex + 1 →
      nextStep g now = { g with phase := .FINISHED }) ∧
    (g.currentQuestionIndex + 1 < (g.questions.length : Int) →
      (nextStep g now).currentQuestionIndex = g.currentQuestionIndex + 1 ∧
      (nextStep g now).phase = .QUESTION_ACTIVE) := by
  constructor
  · intro hc
    exact nextStep_finish g now (Or.inl hph) hc
  · intro hc
    rw [nextStep_advance g now (Or.inl hph) hc]
    exact ⟨rfl, rfl⟩

/-- C9 counterexample: the handlers take no per-game lock, so the fully
interleaved schedule (both loads before either store) is admissible —
the claim's "concurrent commands never interleave" fails — yet it still
executes to the once-advanced record. -/
theorem claim9_counterexample :
    validSchedule [.loadA, .loadB, .storeA, .storeB] ∧
    ¬serialSchedule [.loadA, .loadB, .storeA, .storeB] ∧
    (runSchedule (fun x => nextStep x 1) (fun x => nextStep x 2)
      [.loadA, .loadB, .storeA, .storeB]
      ⟨gLast, none, none⟩).record = { gLast with phase := .FINISHED } := by
  refine ⟨by decide, by decide, by decide⟩

/-- C9 (amended): two simultaneous `next` commands against a game in
`REVEAL_ANSWER` produce exactly one question-index advance (or one
`FINISHED` transition), never two, in every admissible interleaving of
their load/persist steps — not because the critical section is
serialized (the code takes no per-game lock and the interleaved
schedules are admissible), but because interleaved commands write
identical successor records and a second serialized `next` is a
no-op. -/
theorem claim9_single_advance (evs : List NextEv) (nowA nowB : Nat)
    (g : GameState) (hv : validSchedule evs)
    (hph : g.phase = .REVEAL_ANSWER) :
    (((g.questions.length : Int) ≤ g.currentQuestionIndex + 1 →
      (runSchedule (fun x => nextStep x nowA) (fun x => nextStep x nowB) evs
        ⟨g, none, none⟩).record = { g with phase := .FINISHED }) ∧
     (g.currentQuestionIndex + 1 < (g.questions.length : Int) →
      (runSchedule (fun x => nextStep x nowA) (fun x => nextStep x nowB) evs
        ⟨g, none, none⟩).record.currentQuestionIndex =
          g.currentQuestionIndex + 1 ∧
      (runSchedule (fun x => nextStep x nowA) (fun x => nextStep x nowB) evs
        ⟨g, none, none⟩).record.phase = .QUESTION_ACTIVE)) := by
  have hrec : (runSchedule (fun x => nextStep x nowA)
      (fun x => nextStep x nowB) evs ⟨g, none, none⟩).record =
        nextStep g nowA ∨
      (runSchedule (fun x => nextStep x nowA)
      (fun x => nextStep x nowB) evs ⟨g, none, none⟩).record =
        nextStep g nowB := by
    rcases hv with rfl | rfl | rfl | rfl | rfl | rfl
    · left
      simp only [runSchedule]
      exact nextStep_idem g nowA nowB hph
    · right
      simp only [runSchedule]
      rcases le_or_lt (g.questions.length : Int) (g.currentQuestionIndex + 1)
        with hc | hc
      · rw [nextStep_finish g nowB (Or.inl hph) hc]
        exact nextStep_noop _ _ (by simp) (by simp) (by simp)
      · rw [nextStep_advance g nowB (Or.inl hph) hc]
        exact nextStep_noop _ _ (by simp) (by simp) (by simp)
    · right
      simp only [runSchedule]
    · left
      simp only [runSchedule]
    · right
      simp only [runSchedule]
    · left
      simp only [runSchedule]
  rcases hrec with h | h <;> rw [h]
  · exact nextStep_outcome g nowA hph
  · exact nextStep_outcome g nowB hph

/-- Witness for C9 at a serialized schedule on the fixture game. -/
theorem claim9_single_advance_witness :
    validSchedule [.loadA, .storeA, .loadB, .storeB] ∧
    gLast.phase = .REVEAL_ANSWER ∧
    (((gLast.questions.length : Int) ≤ gLast.currentQuestionIndex + 1 →
      (runSchedule (fun x => nextStep x 1) (fun x => nextStep x 2)
        [.loadA, .storeA, .loadB, .storeB]
        ⟨gLast, none, none⟩).record = { gLast with phase := .FINISHED }) ∧
     (gLast.currentQuestionIndex + 1 < (gLast.questions.length : Int) →
      (runSchedule (fun x => nextStep x 1) (fun x => nextStep x 2)
        [.loadA, .storeA, .loadB, .storeB]
        ⟨gLast, none, none⟩).record.currentQuestionIndex =
          gLast.currentQuestionIndex + 1 ∧
      (runSchedule (fun x => nextStep x 1) (fun x => nextStep x 2)
        [.loadA, .storeA, .loadB, .storeB]
        ⟨gLast, none, none⟩).record.phase = .QUESTION_ACTIVE)) :=
  ⟨by decide, by decide,
   claim9_single_advance [.loadA, .storeA, .loadB, .storeB] 1 2 gLast
     (Or.inl rfl) (by decide)⟩

/-! ## Claim C10 -/

/-- C10: `RevealAnswer` has no phase precondition and is not idempotent:
for a record with a current question and a correct entry for `u`, the
host's reveal adds the recomputed score to `u`'s cumulative score, and a
second reveal on the same round (already in `REVEAL_ANSWER`) adds it
again. -/
theorem claim10_reveal_not_idempotent (g : GameState) (q : Question)
    (u : String) (r : AnswerRecord) (g₁ g₂ : GameState)
    (hq : questionAt g.questions g.currentQuestionIndex = some q)
    (hr : g.currentRoundAnswers.lookup u = some r)
    (hcorr : r.answerIndex = q.correctAnswer)
    (hnd : (g.currentRoundAnswers.map Prod.fst).Nodup)
    (h1 : RevealAnswer g g.hostId = .ok g₁)
    (h2 : RevealAnswer g₁ g₁.hostId = .ok g₂) :
    g₁.scores.lookup u = some ((g.scores.lookup u).getD 0 +
      scoreFn true r.timeTakenMs g.timeLimitSeconds) ∧
    g₂.scores.lookup u = some ((g.scores.lookup u).getD 0 +
      2 * scoreFn true r.timeTakenMs g.timeLimitSeconds) := by
  have hbeq : (r.answerIndex == q.correctAnswer) = true := by simpa using hcorr
  unfold RevealAnswer at h1
  rw [hq, if_neg (by simp)] at h1
  simp only [] at h1
  injection h1 with e1
  have hsc1 : g₁.scores = (g.currentRoundAnswers.foldl
      (revealFold q g.timeLimitSeconds) ([], g.scores)).2 := by
    rw [← e1]
  have hans1 : g₁.currentRoundAnswers = (g.currentRoundAnswers.foldl
      (revealFold q g.timeLimitSeconds) ([], g.scores)).1 := by
    rw [← e1]
  have hT1 : g₁.timeLimitSeconds = g.timeLimitSeconds := by rw [← e1]
  have hq1 : questionAt g₁.questions g₁.currentQuestionIndex = some q := by
    rw [← e1]
    exact hq
  have hlook1 : g₁.scores.lookup u = some ((g.scores.lookup u).getD 0 +
      scoreFn true r.timeTakenMs g.timeLimitSeconds) := by
    rw [hsc1, revealFold_snd,
      revealScores_lookup q g.timeLimitSeconds u r _ _ hnd hr, if_pos hbeq]
  have hr1 : g₁.currentRoundAnswers.lookup u =
      some (rescore q g.timeLimitSeconds r) := by
    rw [hans1, revealFold_fst, List.nil_append, lookup_map_scored, hr]
    rfl
  have hnd1 : (g₁.currentRoundAnswers.map Prod.fst).Nodup := by
    rw [hans1, revealFold_fst, List.nil_append, keys_map_scored]
    exact hnd
  refine ⟨hlook1, ?_⟩
  unfold RevealAnswer at h2
  rw [hq1, if_neg (by simp)] at h2
  simp only [] at h2
  injection h2 with e2
  have hsc2 : g₂.scores = (g₁.currentRoundAnswers.foldl
      (revealFold q g₁.timeLimitSeconds) ([], g₁.scores)).2 := by
    rw [← e2]
  rw [hsc2, revealFold_snd,
    revealScores_lookup q g₁.timeLimitSeconds u
      (rescore q g.timeLimitSeconds r) _ _ hnd1 hr1,
    if_pos (show ((rescore q g.timeLimitSeconds r).answerIndex ==
      q.correctAnswer) = true from hbeq),
    hlook1, hT1]
  show some ((g.scores.lookup u).getD 0 +
    scoreFn true r.timeTakenMs g.timeLimitSeconds +
    scoreFn true r.timeTakenMs g.timeLimitSeconds) = _
  congr 1
  omega

/-- Witness for C10: revealing the fixture round twice doubles `"p"`'s
cumulative score from 1000 to 2000. -/
theorem claim10_reveal_not_idempotent_witness :
    RevealAnswer gRound gRound.hostId = .ok gRevealed ∧
    RevealAnswer gRevealed gRevealed.hostId = .ok gRevealedTwice ∧
    (gRevealed.scores.lookup "p" = some ((gRound.scores.lookup "p").getD 0 +
      scoreFn true 0 gRound.timeLimitSeconds) ∧
     gRevealedTwice.scores.lookup "p" =
       some ((gRound.scores.lookup "p").getD 0 +
         2 * scoreFn true 0 gRound.timeLimitSeconds)) :=
  ⟨by decide, by decide,
   claim10_reveal_not_idempotent gRound qA "p" ⟨1, 0, 0, 0⟩ gRevealed
     gRevealedTwice (by decide) (by decide) (by decide) (by decide)
     (by decide) (by decide)⟩

end GuiltyGuild
